import Mathlib

/-!
Verification of the GitStory 2025 core scoring and classification engine.

This file gives a shallow embedding of the repository's core logic:
* `src/services/scoringAlgorithms.ts` — scoring configuration, language
  diversity scoring, repository quality scoring, and a near-duplicate
  archetype / productivity implementation;
* `src/services/githubService.ts` — the report assembly pipeline: the
  time-of-day bucket, the archetype decision list actually used by the
  report, the streak / weekday aggregation loop, and the inline repository
  scorer driving top-repository selection.

Machine numbers are embedded as `ℕ` / `ℤ` / `ℚ` / `ℝ` as appropriate;
JavaScript `Math.log10` is embedded as `Real.logb 10`; `Date` values are
embedded as their millisecond epoch timestamps (`ℤ`), and the ambient
current time (`new Date()` inside a scorer) is passed as an explicit
parameter.  Theorems about the claims follow the definitions.
-/

namespace GitStory

/-- From src/types (as used by the services): the per-kind contribution totals. -/
structure ContributionBreakdown where
  commits : ℕ
  prs : ℕ
  issues : ℕ
  reviews : ℕ
deriving DecidableEq

/-- From src/types: community / profile numbers. -/
structure CommunityStats where
  followers : ℕ
  following : ℕ
  publicRepos : ℕ
  totalStars : ℕ
deriving DecidableEq

/-- From src/types: the productivity profile (peak hour and bucket label). -/
structure ProductivityData where
  timeOfDay : String
  peakHour : ℕ
deriving DecidableEq

/-- A GitHub repository record, with exactly the fields the two scorers read.
`created_at` and `pushed_at` are millisecond epoch timestamps; `description`
and `language` are nullable in the API and therefore `Option`. -/
structure Repo where
  name : String
  description : Option String
  stargazers_count : ℕ
  forks_count : ℕ
  watchers_count : ℕ
  size : ℕ
  open_issues_count : ℕ
  language : Option String
  topics : List String
  fork : Bool
  archived : Bool
  created_at : ℤ
  pushed_at : ℤ
  html_url : String
deriving DecidableEq

/-- Millisecond epoch timestamp of `new Date('2025-01-01')` (UTC), the
anchor used by both services for recency comparisons. -/
def year2025Start : ℤ := 1735689600000

/-! ## src/services/scoringAlgorithms.ts -/

namespace ScoringAlgorithms

/-- `SCORING_CONFIG.language` (scoringAlgorithms.ts lines 2-7). -/
structure LanguageConfig where
  baseWeight : ℚ
  recentActivityBonus : ℚ
  diversityThreshold : ℕ
  diversityBonus : ℚ

/-- A `{ maxPoints, logMultiplier }` entry of `SCORING_CONFIG.repo`. -/
structure LogSignalConfig where
  maxPoints : ℝ
  logMultiplier : ℝ

/-- The `recency` entry of `SCORING_CONFIG.repo`. -/
structure RecencyConfig where
  maxPoints : ℝ

/-- `SCORING_CONFIG.repo` (scoringAlgorithms.ts lines 9-33). -/
structure RepoConfig where
  stars : LogSignalConfig
  forks : LogSignalConfig
  recency : RecencyConfig
  originalWork : ℝ
  hasDescription : ℝ
  hasTopics : ℝ
  hasLanguage : ℝ
  watchersMultiplier : ℝ
  watchersMax : ℝ
  archivedPenalty : ℝ
  sizeLogMultiplier : ℝ
  sizeMaxPoints : ℝ
  openIssuesLogMultiplier : ℝ
  openIssuesMaxPoints : ℝ
  createdIn2025Bonus : ℝ

/-- The two halves of `SCORING_CONFIG`. -/
structure ScoringConfig where
  language : LanguageConfig
  repo : RepoConfig

/-- `SCORING_CONFIG` (scoringAlgorithms.ts lines 1-34), with its default values. -/
noncomputable def SCORING_CONFIG : ScoringConfig :=
  { language :=
      { baseWeight := 1
        recentActivityBonus := 1
        diversityThreshold := 3
        diversityBonus := 0.5 }
    repo :=
      { stars := { maxPoints := 35, logMultiplier := 12 }
        forks := { maxPoints := 20, logMultiplier := 6 }
        recency := { maxPoints := 0 }
        originalWork := 20
        hasDescription := 2
        hasTopics := 2
        hasLanguage := 3
        watchersMultiplier := 0.5
        watchersMax := 5
        archivedPenalty := -20
        sizeLogMultiplier := 3
        sizeMaxPoints := 15
        openIssuesLogMultiplier := 4
        openIssuesMaxPoints := 8
        createdIn2025Bonus := 10 } }

/-- The `language` half of the configuration, as a separate computable value
(the same numbers as `SCORING_CONFIG.language`; kept computable because the
language scorer is evaluated on concrete inputs). -/
def languageConfig : LanguageConfig :=
  { baseWeight := 1
    recentActivityBonus := 1
    diversityThreshold := 3
    diversityBonus := 0.5 }

/-- A per-language accumulator entry (scoringAlgorithms.ts lines 36-41). -/
structure LanguageScore where
  name : String
  weight : ℚ
  repoCount : ℕ
  recentCount : ℕ
deriving DecidableEq

/-- One step of the first pass of `calculateLanguageScores`
(scoringAlgorithms.ts lines 48-74): skip forks and repositories without a
primary language, create the map entry on first sighting (modelled as a
name-keyed association list in insertion order), then bump repo count,
recent count, and weight. -/
def updateLang (m : List LanguageScore) (repo : Repo) : List LanguageScore :=
  if repo.fork then m
  else
    match repo.language with
    | none => m
    | some lang =>
      let isActiveIn2025 := decide (year2025Start ≤ repo.pushed_at)
      let cfg := languageConfig
      let add := cfg.baseWeight + (if isActiveIn2025 then cfg.recentActivityBonus else 0)
      if m.any (fun s => s.name == lang) then
        m.map (fun s =>
          if s.name == lang then
            { s with
              repoCount := s.repoCount + 1
              recentCount := s.recentCount + (if isActiveIn2025 then 1 else 0)
              weight := s.weight + add }
          else s)
      else
        m ++ [{ name := lang
                weight := add
                repoCount := 1
                recentCount := if isActiveIn2025 then 1 else 0 }]

/-- The first pass of `calculateLanguageScores` over the whole collection. -/
def buildLangMap (repos : List Repo) : List LanguageScore :=
  repos.foldl updateLang []

/-- The diversity-bonus update applied to one entry after the full pass
(scoringAlgorithms.ts lines 76-81). -/
def diversityUpdate (s : LanguageScore) : LanguageScore :=
  if languageConfig.diversityThreshold ≤ s.repoCount then
    { s with
      weight := s.weight +
        ((s.repoCount - languageConfig.diversityThreshold : ℕ) : ℚ) *
          languageConfig.diversityBonus }
  else s

/-- The second pass of `calculateLanguageScores`. -/
def applyDiversityBonus (m : List LanguageScore) : List LanguageScore :=
  m.map diversityUpdate

/-- `calculateLanguageScores` (scoringAlgorithms.ts lines 43-84). -/
def calculateLanguageScores (repos : List Repo) : List LanguageScore :=
  applyDiversityBonus (buildLangMap repos)

/-! ### Repository quality scorer (scoringAlgorithms.ts lines 92-155)

The source mutates one accumulator (`score += term` twelve times); the
embedding writes the same score as the sum of twelve named terms, one per
`+=` site, in source order.  The source also binds `const now = new Date()`
(line 95) without ever reading it; the embedding keeps `now` as an explicit,
unread parameter of `calculateRepoScore`. -/

/-- Stars term (lines 98-101). -/
noncomputable def starsScore (r : Repo) : ℝ :=
  min (Real.logb 10 ((r.stargazers_count : ℝ) + 1) * SCORING_CONFIG.repo.stars.logMultiplier)
    SCORING_CONFIG.repo.stars.maxPoints

/-- Forks term (lines 103-106). -/
noncomputable def forksScore (r : Repo) : ℝ :=
  min (Real.logb 10 ((r.forks_count : ℝ) + 1) * SCORING_CONFIG.repo.forks.logMultiplier)
    SCORING_CONFIG.repo.forks.maxPoints

/-- Recency term (lines 108-111): a fixed bonus, gated on a positive
configured maximum (the default is 0, so the gate never passes). -/
noncomputable def recencyScore (r : Repo) : ℝ :=
  if year2025Start ≤ r.pushed_at ∧ 0 < SCORING_CONFIG.repo.recency.maxPoints then
    SCORING_CONFIG.repo.recency.maxPoints
  else 0

/-- Original-work term (lines 113-115). -/
noncomputable def originalWorkScore (r : Repo) : ℝ :=
  if r.fork then 0 else SCORING_CONFIG.repo.originalWork

/-- Description term (lines 117-119): truthy description with trimmed length
above 10. -/
noncomputable def descriptionScore (r : Repo) : ℝ :=
  match r.description with
  | some d => if 10 < d.trim.length then SCORING_CONFIG.repo.hasDescription else 0
  | none => 0

/-- Topics term (lines 121-123). -/
noncomputable def topicsScore (r : Repo) : ℝ :=
  if 0 < r.topics.length then SCORING_CONFIG.repo.hasTopics else 0

/-- Language term (lines 125-127). -/
noncomputable def languageBonusScore (r : Repo) : ℝ :=
  if r.language.isSome then SCORING_CONFIG.repo.hasLanguage else 0

/-- Watchers term (line 129). -/
noncomputable def watchersScore (r : Repo) : ℝ :=
  min ((r.watchers_count : ℝ) * SCORING_CONFIG.repo.watchersMultiplier)
    SCORING_CONFIG.repo.watchersMax

/-- Archived penalty term (lines 131-133). -/
noncomputable def archivedScore (r : Repo) : ℝ :=
  if r.archived then SCORING_CONFIG.repo.archivedPenalty else 0

/-- Size term (lines 135-140). -/
noncomputable def sizeScore (r : Repo) : ℝ :=
  if 0 < r.size then
    min (Real.logb 10 (r.size : ℝ) * SCORING_CONFIG.repo.sizeLogMultiplier)
      SCORING_CONFIG.repo.sizeMaxPoints
  else 0

/-- Open-issues term (lines 142-147). -/
noncomputable def openIssuesScore (r : Repo) : ℝ :=
  if 0 < r.open_issues_count then
    min (Real.logb 10 ((r.open_issues_count : ℝ) + 1) * SCORING_CONFIG.repo.openIssuesLogMultiplier)
      SCORING_CONFIG.repo.openIssuesMaxPoints
  else 0

/-- Created-in-2025 term (lines 149-152). -/
noncomputable def createdScore (r : Repo) : ℝ :=
  if year2025Start ≤ r.created_at then SCORING_CONFIG.repo.createdIn2025Bonus else 0

/-- `calculateRepoScore` (scoringAlgorithms.ts lines 92-155): the sum of the
twelve terms above.  `now` is the current time bound on line 95 of the
source; it is never read. -/
noncomputable def calculateRepoScore (now : ℝ) (r : Repo) : ℝ :=
  starsScore r + forksScore r + recencyScore r + originalWorkScore r +
    descriptionScore r + topicsScore r + languageBonusScore r + watchersScore r +
    archivedScore r + sizeScore r + openIssuesScore r + createdScore r

/-- `calculateArchetype` (scoringAlgorithms.ts lines 159-187): the module's
own archetype variant, kept for reference.  It differs from the variant in
githubService.ts (percentage-only PR/review rules without absolute-count
guards, peak-hour-based owl/bird rules without a commit guard, Night Owl
before Weekend Warrior, inclusive 1200/400 thresholds, weekend ratio against
the histogram total). -/
def calculateArchetypeSA (breakdown : ContributionBreakdown) (community : CommunityStats)
    (totalCommits : ℕ) (peakHour : ℕ) (weekdayStats : List ℕ) : String :=
  let totalActivity := breakdown.commits + breakdown.prs + breakdown.issues + breakdown.reviews
  let prPercentage : ℚ :=
    if 0 < totalActivity then ((breakdown.prs : ℚ) / (totalActivity : ℚ)) * 100 else 0
  let reviewPercentage : ℚ :=
    if 0 < totalActivity then ((breakdown.reviews : ℚ) / (totalActivity : ℚ)) * 100 else 0
  let issuePercentage : ℚ :=
    if 0 < totalActivity then ((breakdown.issues : ℚ) / (totalActivity : ℚ)) * 100 else 0
  let weekendCommits := weekdayStats.getD 0 0 + weekdayStats.getD 6 0
  let totalWeekCommits : ℕ := weekdayStats.foldl (· + ·) 0
  let weekendPercentage : ℚ :=
    if 0 < totalWeekCommits then ((weekendCommits : ℚ) / (totalWeekCommits : ℚ)) * 100 else 0
  if 20 < prPercentage then "The Pull Request Pro"
  else if 10 < reviewPercentage then "The Reviewer"
  else if 22 ≤ peakHour ∨ peakHour ≤ 4 then "The Night Owl"
  else if 5 ≤ peakHour ∧ peakHour ≤ 11 then "The Early Bird"
  else if 35 < weekendPercentage then "The Weekend Warrior"
  else if 1200 ≤ totalCommits then "The Grid Painter"
  else if 400 ≤ totalCommits then "The Consistent"
  else if 15 < issuePercentage then "The Planner"
  else if 500 ≤ community.followers ∨ 1000 ≤ community.totalStars then "The Community Star"
  else "The Tinkerer"

/-- `calculateProductivity` (scoringAlgorithms.ts lines 189-215), kept for
reference.  The input object keyed by hour is embedded as an association
list in ascending hour order (JavaScript object iteration order for integer
keys); note its Evening boundary is 21, unlike githubService.ts. -/
def calculateProductivitySA (hourCounts : List (ℕ × ℕ)) : String × ℕ :=
  let peak := hourCounts.foldl
    (fun acc hc => if acc.2 < hc.2 then (hc.1, hc.2) else acc) (14, 0)
  let peakHour := peak.1
  let timeOfDay :=
    if 5 ≤ peakHour ∧ peakHour < 12 then "Morning"
    else if 12 ≤ peakHour ∧ peakHour < 17 then "Afternoon"
    else if 17 ≤ peakHour ∧ peakHour < 21 then "Evening"
    else "Late Night"
  (timeOfDay, peakHour)

end ScoringAlgorithms

/-! ## src/services/githubService.ts -/

namespace GithubService

/-- `getProductivityTime` (githubService.ts lines 9-14): the time-of-day
bucket used by the report pipeline (Evening boundary 22). -/
def getProductivityTime (hour : ℕ) : String :=
  if 5 ≤ hour ∧ hour < 12 then "Morning"
  else if 12 ≤ hour ∧ hour < 17 then "Afternoon"
  else if 17 ≤ hour ∧ hour < 22 then "Evening"
  else "Late Night"

/-- `totalActivity` (githubService.ts line 25). -/
def totalActivity (stats : ContributionBreakdown) : ℕ :=
  stats.commits + stats.prs + stats.issues + stats.reviews

/-- `prRatio` (githubService.ts line 26), 0 when there is no activity. -/
def prRatio (stats : ContributionBreakdown) : ℚ :=
  if 0 < totalActivity stats then (stats.prs : ℚ) / (totalActivity stats : ℚ) else 0

/-- `reviewRatio` (githubService.ts line 27). -/
def reviewRatio (stats : ContributionBreakdown) : ℚ :=
  if 0 < totalActivity stats then (stats.reviews : ℚ) / (totalActivity stats : ℚ) else 0

/-- `issueRatio` (githubService.ts line 28). -/
def issueRatio (stats : ContributionBreakdown) : ℚ :=
  if 0 < totalActivity stats then (stats.issues : ℚ) / (totalActivity stats : ℚ) else 0

/-- `weekendRatio` (githubService.ts lines 31-32): Sunday + Saturday slots
of the weekday histogram over the total commit count, 0 when there are no
commits. -/
def weekendRatio (totalCommits : ℕ) (weekdayStats : List ℕ) : ℚ :=
  if 0 < totalCommits then
    ((weekdayStats.getD 0 0 + weekdayStats.getD 6 0 : ℕ) : ℚ) / (totalCommits : ℚ)
  else 0

/-- `calculateArchetype` (githubService.ts lines 18-81): the ordered decision
list actually used to label the report. -/
def calculateArchetype (stats : ContributionBreakdown) (community : CommunityStats)
    (totalCommits : ℕ) (productivity : ProductivityData) (weekdayStats : List ℕ) : String :=
  if 0.20 < prRatio stats ∧ 20 < stats.prs then "The Pull Request Pro"
  else if 0.10 < reviewRatio stats ∧ 10 < stats.reviews then "The Reviewer"
  else if 0.35 < weekendRatio totalCommits weekdayStats ∧ 50 < totalCommits then
    "The Weekend Warrior"
  else if productivity.timeOfDay = "Late Night" ∧ 50 < totalCommits then "The Night Owl"
  else if productivity.timeOfDay = "Morning" ∧ 50 < totalCommits then "The Early Bird"
  else if 1200 < totalCommits then "The Grid Painter"
  else if 400 < totalCommits then "The Consistent"
  else if 0.15 < issueRatio stats then "The Planner"
  else if 500 < community.followers ∨ 1000 < community.totalStars then "The Community Star"
  else "The Tinkerer"

/-- First-match evaluation of an ordered guarded-rule list with a default
label.  Modelled from the spec: §4.5 requires the classifier to behave as an
ordered list of (predicate, label) pairs where the first satisfied rule
decides and evaluation stops. -/
def firstMatch : List (Bool × String) → String → String
  | [], d => d
  | (c, l) :: rest, d => if c then l else firstMatch rest d

/-- Modelled from the spec: the ten rules of §4.5 in their fixed order
(the tenth being the default handed to `firstMatch`). -/
def specArchetypeRules (stats : ContributionBreakdown) (community : CommunityStats)
    (totalCommits : ℕ) (productivity : ProductivityData) (weekdayStats : List ℕ) :
    List (Bool × String) :=
  [ (decide ((0.20 : ℚ) < prRatio stats ∧ 20 < stats.prs), "The Pull Request Pro"),
    (decide ((0.10 : ℚ) < reviewRatio stats ∧ 10 < stats.reviews), "The Reviewer"),
    (decide ((0.35 : ℚ) < weekendRatio totalCommits weekdayStats ∧ 50 < totalCommits),
      "The Weekend Warrior"),
    (decide (productivity.timeOfDay = "Late Night" ∧ 50 < totalCommits), "The Night Owl"),
    (decide (productivity.timeOfDay = "Morning" ∧ 50 < totalCommits), "The Early Bird"),
    (decide (1200 < totalCommits), "The Grid Painter"),
    (decide (400 < totalCommits), "The Consistent"),
    (decide ((0.15 : ℚ) < issueRatio stats), "The Planner"),
    (decide (500 < community.followers ∨ 1000 < community.totalStars), "The Community Star") ]

/-! ### Contribution aggregation (githubService.ts lines 153-184)

The loop walks the date-sorted daily counts keeping a current streak and the
maximum streak seen (`currentStreak`, `maxStreak`, lines 155-156 and
174-179), and a 7-slot weekday histogram; the busiest weekday is the first
index holding the histogram maximum (lines 182-184). -/

/-- The streak part of the daily loop: state is (currentStreak, maxStreak);
a positive count increments the streak and records it if it beats the
maximum, a zero count resets the streak. -/
def streakAux : ℕ → ℕ → List ℕ → ℕ
  | _, best, [] => best
  | cur, best, c :: rest =>
    if 0 < c then streakAux (cur + 1) (max best (cur + 1)) rest
    else streakAux 0 best rest

/-- `maxStreak` after the loop (githubService.ts lines 155-156, 174-179),
over the date-ordered daily counts. -/
def longestStreak (counts : List ℕ) : ℕ :=
  streakAux 0 0 counts

/-- Length of the initial run of positive counts. -/
def runLen : List ℕ → ℕ
  | [] => 0
  | c :: rest => if 0 < c then runLen rest + 1 else 0

/-- Modelled from the spec: the longest run of consecutive days with positive
count, i.e. the maximum over all suffix positions of the run starting there. -/
def maxRun : List ℕ → ℕ
  | [] => 0
  | c :: rest => max (runLen (c :: rest)) (maxRun rest)

/-- The streak a pending current run can still contribute: if the list keeps
the run going, the carried length plus the initial run, otherwise nothing new. -/
def extRun : ℕ → List ℕ → ℕ
  | _, [] => 0
  | cur, c :: rest => if 0 < c then cur + runLen (c :: rest) else 0

/-- `Math.max(...weekdayStats)` (githubService.ts line 183) over the
(non-negative) histogram slots. -/
def maxOf (ws : List ℕ) : ℕ :=
  ws.foldr max 0

/-- `weekdayStats.indexOf(Math.max(...weekdayStats))` (line 183): the first
index holding the maximum. -/
def maxDayIndex (ws : List ℕ) : ℕ :=
  ws.indexOf (maxOf ws)

/-- The `days` label table (githubService.ts line 182). -/
def days : List String :=
  ["Sundays", "Mondays", "Tuesdays", "Wednesdays", "Thursdays", "Fridays", "Saturdays"]

/-- `busiestDay` (githubService.ts line 184). -/
def busiestDay (ws : List ℕ) : String :=
  days.getD (maxDayIndex ws) ""

/-! ### Top-repository selection (githubService.ts lines 214-316) -/

/-- The inline `calculateRepoScore` (githubService.ts lines 219-269): the
near-duplicate scorer used only to pick the standout repository.  `now` is
the millisecond timestamp of `new Date()` on line 221; here it is read by
the recency decay term. -/
noncomputable def calculateRepoScore (now : ℝ) (r : Repo) : ℝ :=
  min (Real.logb 10 ((r.stargazers_count : ℝ) + 1) * 10) 30 +
    min (Real.logb 10 ((r.forks_count : ℝ) + 1) * 5) 15 +
    (if year2025Start ≤ r.pushed_at then
      max 0 (25 - (max 0 ((now - (r.pushed_at : ℝ)) / (1000 * 60 * 60 * 24))) / 15)
    else 0) +
    (if r.fork then 0 else 15) +
    (match r.description with
      | some d => if 10 < d.trim.length then (5 : ℝ) else 0
      | none => 0) +
    (if 0 < r.topics.length then 5 else 0) +
    (if r.language.isSome then 3 else 0) +
    min ((r.watchers_count : ℝ) * 0.5) 5 +
    (if r.archived then -20 else 0)

/-- One step of the best-repository scan (githubService.ts lines 280-284):
a strictly greater score replaces the running best. -/
noncomputable def selectStep (now : ℝ) (acc : Option Repo × ℝ) (repo : Repo) :
    Option Repo × ℝ :=
  if acc.2 < calculateRepoScore now repo then (some repo, calculateRepoScore now repo)
  else acc

/-- The best-repository scan over the collection, started from
`bestRepo = null`, `bestScore = -1` (githubService.ts lines 214-215). -/
noncomputable def selectBest (now : ℝ) (repos : List Repo) : Option Repo × ℝ :=
  repos.foldl (selectStep now) (none, -1)

/-- The `topRepo` value of the report (githubService.ts lines 302-316),
as the displayed fields. -/
structure Repository where
  name : String
  description : String
  stars : ℕ
  language : String
  topics : List String
  url : String
deriving DecidableEq

/-- Build the report's `topRepo` from the scan result (githubService.ts
lines 302-316): the selected record's fields, or the placeholder when no
record was selected. -/
def topRepoOf : Option Repo → Repository
  | some b =>
    { name := b.name
      description := b.description.getD "No description provided."
      stars := b.stargazers_count
      language := b.language.getD "Unknown"
      topics := b.topics
      url := b.html_url }
  | none =>
    { name := "No Public Repos"
      description := "Start coding to write history."
      stars := 0
      language := "N/A"
      topics := []
      url := "" }

end GithubService

/-! ## Concrete inputs used by witnesses -/

/-- A minimal non-fork repository carrying only a primary language, pushed
before 2025; used to exercise the language diversity bonus. -/
def langRepo (nm : String) : Repo :=
  { name := nm
    description := none
    stargazers_count := 0
    forks_count := 0
    watchers_count := 0
    size := 0
    open_issues_count := 0
    language := some "A"
    topics := []
    fork := false
    archived := false
    created_at := 0
    pushed_at := 0
    html_url := "" }

/-- Four repositories sharing the language "A". -/
def fourLangRepos : List Repo :=
  [langRepo "r1", langRepo "r2", langRepo "r3", langRepo "r4"]

/-- An archived fork with zero stars, forks, watchers, size and open issues,
no description, topics or language, last pushed before 2025: its
githubService score is -20. -/
def archivedFork : Repo :=
  { name := "old-fork"
    description := none
    stargazers_count := 0
    forks_count := 0
    watchers_count := 0
    size := 0
    open_issues_count := 0
    language := none
    topics := []
    fork := true
    archived := true
    created_at := 0
    pushed_at := 0
    html_url := "" }

/-! ## Theorems -/

/-- C2: the repository quality scorer (scoringAlgorithms.ts) is
deterministic: the score is a function of the record alone — in particular
it does not depend on the ambient current time bound on line 95 of the
source — so two calls on the identical record yield the identical score. -/
theorem repoScore_deterministic (now1 now2 : ℝ) (r : Repo) :
    ScoringAlgorithms.calculateRepoScore now1 r =
      ScoringAlgorithms.calculateRepoScore now2 r := rfl

/-- C3: for every hour 0-23, the report pipeline's time-of-day bucket is
Morning exactly on [5,12), Afternoon exactly on [12,17), Evening exactly on
[17,22), and Late Night exactly on the rest ([22,24) and [0,5)); in
particular peak hour 21 falls in Evening. -/
theorem productivityTime_buckets (h : ℕ) (hh : h < 24) :
    (GithubService.getProductivityTime h = "Morning" ↔ 5 ≤ h ∧ h < 12) ∧
    (GithubService.getProductivityTime h = "Afternoon" ↔ 12 ≤ h ∧ h < 17) ∧
    (GithubService.getProductivityTime h = "Evening" ↔ 17 ≤ h ∧ h < 22) ∧
    (GithubService.getProductivityTime h = "Late Night" ↔ (22 ≤ h ∧ h < 24) ∨ h < 5) := by
  interval_cases h <;> decide

/-- Witness for C3 at peak hour 21: the bucket is Evening. -/
theorem productivityTime_buckets_witness :
    21 < 24 ∧ GithubService.getProductivityTime 21 = "Evening" :=
  ⟨by decide, (productivityTime_buckets 21 (by decide)).2.2.1.mpr (by decide)⟩

/-- C5: the stars term of the repository quality scorer equals
min(log10(stars+1) x 12, 35) and always lies within [0, 35]. -/
theorem starsScore_formula_and_bounds (r : Repo) :
    ScoringAlgorithms.starsScore r =
      min (Real.logb 10 ((r.stargazers_count : ℝ) + 1) * 12) 35 ∧
    0 ≤ ScoringAlgorithms.starsScore r ∧ ScoringAlgorithms.starsScore r ≤ 35 := by
  have hlog : (0 : ℝ) ≤ Real.logb 10 ((r.stargazers_count : ℝ) + 1) := by
    apply Real.logb_nonneg (by norm_num)
    have := Nat.cast_nonneg (α := ℝ) r.stargazers_count
    linarith
  refine ⟨by simp [ScoringAlgorithms.starsScore, ScoringAlgorithms.SCORING_CONFIG], ?_, ?_⟩
  · simp only [ScoringAlgorithms.starsScore, ScoringAlgorithms.SCORING_CONFIG]
    exact le_min (by positivity) (by norm_num)
  · simp only [ScoringAlgorithms.starsScore, ScoringAlgorithms.SCORING_CONFIG]
    exact min_le_right _ _

/-- C8: setting the archived flag lowers the repository quality score by
exactly 20, all other fields equal. -/
theorem repoScore_archived_difference (now : ℝ) (r : Repo) :
    ScoringAlgorithms.calculateRepoScore now { r with archived := true } =
      ScoringAlgorithms.calculateRepoScore now { r with archived := false } - 20 := by
  simp only [ScoringAlgorithms.calculateRepoScore, ScoringAlgorithms.starsScore,
    ScoringAlgorithms.forksScore, ScoringAlgorithms.recencyScore,
    ScoringAlgorithms.originalWorkScore, ScoringAlgorithms.descriptionScore,
    ScoringAlgorithms.topicsScore, ScoringAlgorithms.languageBonusScore,
    ScoringAlgorithms.watchersScore, ScoringAlgorithms.archivedScore,
    ScoringAlgorithms.sizeScore, ScoringAlgorithms.openIssuesScore,
    ScoringAlgorithms.createdScore, ScoringAlgorithms.SCORING_CONFIG]
  norm_num
  ring

/-- C1: with breakdown {commits 10, prs 5, issues 0, reviews 0}, at most 50
commits, and the community rule unsatisfied, the classifier returns
Tinkerer — even though the PR ratio (1/3) exceeds 0.20, rule 1 does not
fire because prs is not greater than 20. -/
theorem archetype_tinkerer_small_prs (community : CommunityStats) (totalCommits : ℕ)
    (productivity : ProductivityData) (weekdayStats : List ℕ)
    (hc : totalCommits ≤ 50) (hf : community.followers ≤ 500)
    (hs : community.totalStars ≤ 1000) :
    GithubService.calculateArchetype ⟨10, 5, 0, 0⟩ community totalCommits
        productivity weekdayStats = "The Tinkerer" ∧
      (0.20 : ℚ) < GithubService.prRatio ⟨10, 5, 0, 0⟩ := by
  constructor
  · have h1 : ¬ (50 < totalCommits) := by omega
    have h4 : ¬ (1200 < totalCommits) := by omega
    have h5 : ¬ (400 < totalCommits) := by omega
    have h2 : ¬ (500 < community.followers) := by omega
    have h3 : ¬ (1000 < community.totalStars) := by omega
    norm_num [GithubService.calculateArchetype, GithubService.prRatio,
      GithubService.reviewRatio, GithubService.issueRatio, GithubService.totalActivity,
      h1, h2, h3, h4, h5]
  · norm_num [ GithubService.prRatio, GithubService.totalActivity]

/-- Witness for C1 at a concrete community, commit total, productivity
profile and weekday histogram. -/
theorem archetype_tinkerer_small_prs_witness :
    (10 : ℕ) ≤ 50 ∧
    GithubService.calculateArchetype ⟨10, 5, 0, 0⟩ ⟨0, 0, 0, 0⟩ 10
        ⟨"Afternoon", 14⟩ [0, 0, 0, 0, 0, 0, 0] = "The Tinkerer" ∧
      (0.20 : ℚ) < GithubService.prRatio ⟨10, 5, 0, 0⟩ :=
  ⟨by decide,
    (archetype_tinkerer_small_prs ⟨0, 0, 0, 0⟩ 10 ⟨"Afternoon", 14⟩
      [0, 0, 0, 0, 0, 0, 0] (by decide) (by decide) (by decide)).1,
    (archetype_tinkerer_small_prs ⟨0, 0, 0, 0⟩ 10 ⟨"Afternoon", 14⟩
      [0, 0, 0, 0, 0, 0, 0] (by decide) (by decide) (by decide)).2⟩

/-- C4: the classifier used by the report equals first-match evaluation of
the ten spec rules in their fixed order (Weekend Warrior third, Night Owl
fourth), and the Night Owl label is produced only when the time-of-day
bucket is Late Night and the commit total exceeds 50. -/
theorem archetype_rule_order (stats : ContributionBreakdown) (community : CommunityStats)
    (totalCommits : ℕ) (productivity : ProductivityData) (weekdayStats : List ℕ) :
    GithubService.calculateArchetype stats community totalCommits productivity weekdayStats =
      GithubService.firstMatch
        (GithubService.specArchetypeRules stats community totalCommits productivity weekdayStats)
        "The Tinkerer" ∧
    (GithubService.calculateArchetype stats community totalCommits productivity weekdayStats =
        "The Night Owl" →
      productivity.timeOfDay = "Late Night" ∧ 50 < totalCommits) := by
  constructor
  · simp [GithubService.calculateArchetype, GithubService.specArchetypeRules,
      GithubService.firstMatch, decide_eq_true_eq]
  · intro h
    rw [GithubService.calculateArchetype] at h
    split_ifs at h with h1 h2 h3 h4 h5 h6 h7 h8 h9
    · exact absurd h (by decide)
    · exact absurd h (by decide)
    · exact absurd h (by decide)
    · exact h4
    · exact absurd h (by decide)
    · exact absurd h (by decide)
    · exact absurd h (by decide)
    · exact absurd h (by decide)
    · exact absurd h (by decide)
    · exact absurd h (by decide)

/-- Witness for C4 at a concrete Late Night input on which the classifier
does return Night Owl. -/
theorem archetype_rule_order_witness :
    GithubService.calculateArchetype ⟨100, 0, 0, 0⟩ ⟨0, 0, 0, 0⟩ 100
        ⟨"Late Night", 23⟩ [0, 0, 0, 0, 0, 0, 0] =
      GithubService.firstMatch
        (GithubService.specArchetypeRules ⟨100, 0, 0, 0⟩ ⟨0, 0, 0, 0⟩ 100
          ⟨"Late Night", 23⟩ [0, 0, 0, 0, 0, 0, 0])
        "The Tinkerer" ∧
    (ProductivityData.timeOfDay ⟨"Late Night", 23⟩ = "Late Night" ∧ 50 < 100) :=
  ⟨(archetype_rule_order ⟨100, 0, 0, 0⟩ ⟨0, 0, 0, 0⟩ 100 ⟨"Late Night", 23⟩
      [0, 0, 0, 0, 0, 0, 0]).1,
    (archetype_rule_order ⟨100, 0, 0, 0⟩ ⟨0, 0, 0, 0⟩ 100 ⟨"Late Night", 23⟩
      [0, 0, 0, 0, 0, 0, 0]).2
      (by norm_num [GithubService.calculateArchetype, GithubService.prRatio,
        GithubService.reviewRatio, GithubService.issueRatio, GithubService.weekendRatio,
        GithubService.totalActivity])⟩

/-- The initial positive run is one of the runs counted by `maxRun`. -/
theorem runLen_le_maxRun (l : List ℕ) : GithubService.runLen l ≤ GithubService.maxRun l := by
  cases l with
  | nil => exact Nat.le_refl 0
  | cons c rest => exact le_max_left _ _

/-- With no streak carried in, the extension term is dominated by `maxRun`. -/
theorem extRun_zero_le (l : List ℕ) : GithubService.extRun 0 l ≤ GithubService.maxRun l := by
  cases l with
  | nil => exact Nat.le_refl 0
  | cons c rest =>
    by_cases hc : 0 < c
    · simpa [GithubService.extRun, hc] using runLen_le_maxRun (c :: rest)
    · simp [GithubService.extRun, hc]

/-- Invariant of the streak loop: the final maximum is the maximum already
recorded, the best extension of the carried streak, and the best fresh run. -/
theorem streakAux_closed_form (l : List ℕ) : ∀ cur best : ℕ,
    GithubService.streakAux cur best l =
      max best (max (GithubService.extRun cur l) (GithubService.maxRun l)) := by
  induction l with
  | nil =>
    intro cur best
    simp [GithubService.streakAux, GithubService.extRun, GithubService.maxRun]
  | cons c rest ih =>
    intro cur best
    by_cases hc : 0 < c
    · have hr : GithubService.runLen (c :: rest) = GithubService.runLen rest + 1 := by
        simp [GithubService.runLen, hc]
      have h1 : GithubService.extRun cur (c :: rest) = cur + (GithubService.runLen rest + 1) := by
        simp [GithubService.extRun, hc, hr]
      have h2 : GithubService.maxRun (c :: rest) =
          max (GithubService.runLen rest + 1) (GithubService.maxRun rest) := by
        rw [GithubService.maxRun.eq_def]
        simp [hr]
      rw [show GithubService.streakAux cur best (c :: rest) =
          GithubService.streakAux (cur + 1) (max best (cur + 1)) rest by
        rw [GithubService.streakAux.eq_def]
        simp [hc]]
      rw [ih, h1, h2]
      cases rest with
      | nil =>
        simp only [GithubService.extRun, GithubService.runLen, GithubService.maxRun]
        omega
      | cons d rest2 =>
        by_cases hd : 0 < d
        · have h3 : GithubService.extRun (cur + 1) (d :: rest2) =
              (cur + 1) + (GithubService.runLen rest2 + 1) := by
            simp [GithubService.extRun, GithubService.runLen, hd]
          have h4 : GithubService.runLen (d :: rest2) = GithubService.runLen rest2 + 1 := by
            simp [GithubService.runLen, hd]
          have h5 : GithubService.maxRun (d :: rest2) =
              max (GithubService.runLen rest2 + 1) (GithubService.maxRun rest2) := by
            rw [GithubService.maxRun.eq_def]
            simp [h4]
          rw [h3, h5, h4]
          omega
        · have h3 : GithubService.extRun (cur + 1) (d :: rest2) = 0 := by
            simp [GithubService.extRun, hd]
          have h4 : GithubService.runLen (d :: rest2) = 0 := by
            simp [GithubService.runLen, hd]
          have h5 : GithubService.maxRun (d :: rest2) =
              max 0 (GithubService.maxRun rest2) := by
            rw [GithubService.maxRun.eq_def]
            simp [h4]
          rw [h3, h5, h4]
          omega
    · have h1 : GithubService.extRun cur (c :: rest) = 0 := by
        simp [GithubService.extRun, hc]
      have h2 : GithubService.maxRun (c :: rest) =
          max 0 (GithubService.maxRun rest) := by
        rw [GithubService.maxRun.eq_def]
        simp [GithubService.runLen, hc]
      rw [show GithubService.streakAux cur best (c :: rest) =
          GithubService.streakAux 0 best rest by
        rw [GithubService.streakAux.eq_def]
        simp [hc]]
      rw [ih, h1, h2]
      have hext := extRun_zero_le rest
      omega

/-- C7: the streak loop computes exactly the longest run of consecutive days
with positive count; in particular [1,0,1,1,0,1,1,1] yields 3 and all-zero
sequences yield 0. -/
theorem longestStreak_is_maxRun :
    (∀ counts : List ℕ, GithubService.longestStreak counts = GithubService.maxRun counts) ∧
    GithubService.longestStreak [1, 0, 1, 1, 0, 1, 1, 1] = 3 ∧
    (∀ n : ℕ, GithubService.longestStreak (List.replicate n 0) = 0) := by
  have hmain : ∀ counts : List ℕ,
      GithubService.longestStreak counts = GithubService.maxRun counts := by
    intro counts
    rw [GithubService.longestStreak, streakAux_closed_form]
    have := extRun_zero_le counts
    omega
  refine ⟨hmain, by decide, ?_⟩
  intro n
  rw [hmain]
  induction n with
  | zero => rfl
  | succ n ih =>
    rw [List.replicate_succ, GithubService.maxRun, ih]
    simp [GithubService.runLen]

/-- The histogram maximum is attained by some slot of a non-empty histogram. -/
theorem maxOf_mem : ∀ {ws : List ℕ}, ws ≠ [] → GithubService.maxOf ws ∈ ws := by
  intro ws
  induction ws with
  | nil => intro hne; exact absurd rfl hne
  | cons a rest ih =>
    intro _
    by_cases hr : rest = []
    · subst hr
      simp [GithubService.maxOf]
    · have hstep : GithubService.maxOf (a :: rest) = max a (GithubService.maxOf rest) := rfl
      rcases max_choice a (GithubService.maxOf rest) with h | h
      · rw [hstep, h]; exact List.mem_cons_self a rest
      · rw [hstep, h]; exact List.mem_cons_of_mem a (ih hr)

/-- Every slot is at most the histogram maximum. -/
theorem le_maxOf : ∀ (ws : List ℕ), ∀ x ∈ ws, x ≤ GithubService.maxOf ws := by
  intro ws
  induction ws with
  | nil => intro x hx; simp at hx
  | cons a rest ih =>
    intro x hx
    have hstep : GithubService.maxOf (a :: rest) = max a (GithubService.maxOf rest) := rfl
    rcases List.mem_cons.mp hx with h | h
    · rw [hstep, h]; exact le_max_left _ _
    · rw [hstep]; exact le_trans (ih x h) (le_max_right _ _)

/-- JavaScript-style indexOf: on a member it returns an in-range index whose
slot holds the value, and every earlier slot differs from the value. -/
theorem indexOf_first_occurrence (l : List ℕ) (a : ℕ) (h : a ∈ l) :
    l.indexOf a < l.length ∧ l.getD (l.indexOf a) 0 = a ∧
      ∀ j, j < l.indexOf a → l.getD j 0 ≠ a := by
  induction l with
  | nil => simp at h
  | cons b rest ih =>
    by_cases hb : b = a
    · subst hb
      rw [List.indexOf_cons_self]
      refine ⟨Nat.succ_pos _, rfl, ?_⟩
      intro j hj
      exact absurd hj (Nat.not_lt_zero j)
    · rw [List.indexOf_cons_ne rest hb]
      have hmem : a ∈ rest := by
        rcases List.mem_cons.mp h with heq | hm
        · exact absurd heq.symm hb
        · exact hm
      obtain ⟨ih1, ih2, ih3⟩ := ih hmem
      refine ⟨Nat.succ_lt_succ ih1, ih2, ?_⟩
      intro j hj
      cases j with
      | zero => simpa using hb
      | succ j2 =>
        have : j2 < rest.indexOf a := Nat.lt_of_succ_lt_succ hj
        simpa using ih3 j2 this

/-- C9: over a 7-slot weekday histogram, the busiest-day index is in range,
its slot attains the histogram maximum, and every earlier slot is strictly
below the maximum (ties resolve to the lowest index). -/
theorem busiestDay_argmax (ws : List ℕ) (h7 : ws.length = 7) :
    GithubService.maxDayIndex ws < 7 ∧
    ws.getD (GithubService.maxDayIndex ws) 0 = GithubService.maxOf ws ∧
    ∀ j, j < GithubService.maxDayIndex ws → ws.getD j 0 < GithubService.maxOf ws := by
  have hne : ws ≠ [] := by
    intro hnil
    rw [hnil] at h7
    simp at h7
  obtain ⟨h1, h2, h3⟩ := indexOf_first_occurrence ws (GithubService.maxOf ws) (maxOf_mem hne)
  refine ⟨by rw [GithubService.maxDayIndex]; omega, h2, ?_⟩
  intro j hj
  have hjlen : j < ws.length := lt_trans hj h1
  have hne2 := h3 j hj
  have hle : ws.getD j 0 ≤ GithubService.maxOf ws := by
    rw [List.getD_eq_getElem _ _ hjlen]
    exact le_maxOf ws _ (List.getElem_mem hjlen)
  exact lt_of_le_of_ne hle hne2

/-- Witness for C9 at the histogram [5,0,0,0,0,0,5]: the busiest day is
index 0, Sundays. -/
theorem busiestDay_argmax_witness :
    ([5, 0, 0, 0, 0, 0, 5] : List ℕ).length = 7 ∧
    GithubService.maxDayIndex [5, 0, 0, 0, 0, 0, 5] < 7 ∧
    GithubService.maxDayIndex [5, 0, 0, 0, 0, 0, 5] = 0 ∧
    GithubService.busiestDay [5, 0, 0, 0, 0, 0, 5] = "Sundays" :=
  ⟨by decide, (busiestDay_argmax [5, 0, 0, 0, 0, 0, 5] (by decide)).1, by decide, by decide⟩

/-- The diversity-bonus pass never changes an entry's language name. -/
theorem diversityUpdate_name (s : ScoringAlgorithms.LanguageScore) :
    (ScoringAlgorithms.diversityUpdate s).name = s.name := by
  rw [ScoringAlgorithms.diversityUpdate]
  split_ifs <;> rfl

/-- The diversity-bonus pass never changes an entry's repo count. -/
theorem diversityUpdate_repoCount (s : ScoringAlgorithms.LanguageScore) :
    (ScoringAlgorithms.diversityUpdate s).repoCount = s.repoCount := by
  rw [ScoringAlgorithms.diversityUpdate]
  split_ifs <;> rfl

/-- The diversity-bonus pass never changes an entry's recent count. -/
theorem diversityUpdate_recentCount (s : ScoringAlgorithms.LanguageScore) :
    (ScoringAlgorithms.diversityUpdate s).recentCount = s.recentCount := by
  rw [ScoringAlgorithms.diversityUpdate]
  split_ifs <;> rfl

/-- Looking a language up after the bonus pass is looking it up before the
pass and applying the per-entry bonus update. -/
theorem find?_applyDiversityBonus (lang : String) (m : List ScoringAlgorithms.LanguageScore) :
    (ScoringAlgorithms.applyDiversityBonus m).find? (fun t => t.name == lang) =
      (m.find? (fun t => t.name == lang)).map ScoringAlgorithms.diversityUpdate := by
  induction m with
  | nil => rfl
  | cons s rest ih =>
    rw [ScoringAlgorithms.applyDiversityBonus, List.map_cons]
    by_cases hs : s.name = lang
    · rw [List.find?_cons_of_pos, List.find?_cons_of_pos]
      · rfl
      · simpa using hs
      · simp [diversityUpdate_name, hs]
    · rw [List.find?_cons_of_neg, List.find?_cons_of_neg]
      · exact ih
      · simpa using hs
      · simp [diversityUpdate_name, hs]

/-- C6: after the language pass, every language entry's weight is its
pre-bonus weight plus (repoCount - 3) x 0.5 when its repo count is at least
3, and is unchanged below 3; in particular 3 repositories add 0, 4 add 0.5,
and 5 add 1. -/
theorem languageScores_diversity_bonus (repos : List Repo) (lang : String)
    (s : ScoringAlgorithms.LanguageScore)
    (h : (ScoringAlgorithms.calculateLanguageScores repos).find? (fun t => t.name == lang) =
      some s) :
    ∃ s0, (ScoringAlgorithms.buildLangMap repos).find? (fun t => t.name == lang) = some s0 ∧
      s.name = s0.name ∧ s.repoCount = s0.repoCount ∧ s.recentCount = s0.recentCount ∧
      s.weight = s0.weight +
        (if 3 ≤ s0.repoCount then ((s0.repoCount : ℚ) - 3) * 0.5 else 0) ∧
      (s0.repoCount = 3 → s.weight = s0.weight) ∧
      (s0.repoCount = 4 → s.weight = s0.weight + 0.5) ∧
      (s0.repoCount = 5 → s.weight = s0.weight + 1) := by
  rw [ScoringAlgorithms.calculateLanguageScores, find?_applyDiversityBonus] at h
  cases h0 : (ScoringAlgorithms.buildLangMap repos).find? (fun t => t.name == lang) with
  | none => rw [h0] at h; simp at h
  | some s0 =>
    rw [h0] at h
    simp only [Option.map_some'] at h
    refine ⟨s0, rfl, ?_⟩
    have hs : ScoringAlgorithms.diversityUpdate s0 = s := by injection h
    subst hs
    refine ⟨diversityUpdate_name s0, diversityUpdate_repoCount s0,
      diversityUpdate_recentCount s0, ?_, ?_, ?_, ?_⟩
    · rw [ScoringAlgorithms.diversityUpdate]
      by_cases h3 : 3 ≤ s0.repoCount
      · rw [if_pos (by simpa [ScoringAlgorithms.languageConfig] using h3)]
        simp only [if_pos h3, ScoringAlgorithms.languageConfig]
        have hcast : ((s0.repoCount - 3 : ℕ) : ℚ) = (s0.repoCount : ℚ) - 3 := by
          push_cast [Nat.cast_sub h3]
          ring
        rw [hcast]
      · rw [if_neg (by simpa [ScoringAlgorithms.languageConfig] using h3)]
        simp [if_neg h3]
    · intro h3
      rw [ScoringAlgorithms.diversityUpdate, if_pos (by simp [ScoringAlgorithms.languageConfig, h3])]
      simp [ScoringAlgorithms.languageConfig, h3]
    · intro h4
      rw [ScoringAlgorithms.diversityUpdate, if_pos (by simp [ScoringAlgorithms.languageConfig, h4])]
      simp [ScoringAlgorithms.languageConfig, h4]
    · intro h5
      rw [ScoringAlgorithms.diversityUpdate, if_pos (by simp [ScoringAlgorithms.languageConfig, h5])]
      simp [ScoringAlgorithms.languageConfig, h5]
      norm_num

/-- Witness for C6 on four non-fork repositories sharing language "A": the
pre-bonus weight 4 becomes 4 + 0.5 = 9/2. -/
theorem languageScores_diversity_bonus_witness :
    (ScoringAlgorithms.calculateLanguageScores fourLangRepos).find?
        (fun t => t.name == "A") = some ⟨"A", 9/2, 4, 0⟩ ∧
    ∃ s0, (ScoringAlgorithms.buildLangMap fourLangRepos).find? (fun t => t.name == "A") =
        some s0 ∧
      ("A" : String) = s0.name ∧ (4 : ℕ) = s0.repoCount ∧ (0 : ℕ) = s0.recentCount ∧
      (9/2 : ℚ) = s0.weight +
        (if 3 ≤ s0.repoCount then ((s0.repoCount : ℚ) - 3) * 0.5 else 0) ∧
      (s0.repoCount = 3 → (9/2 : ℚ) = s0.weight) ∧
      (s0.repoCount = 4 → (9/2 : ℚ) = s0.weight + 0.5) ∧
      (s0.repoCount = 5 → (9/2 : ℚ) = s0.weight + 1) := by
  have hfind : (ScoringAlgorithms.calculateLanguageScores fourLangRepos).find?
      (fun t => t.name == "A") = some ⟨"A", 9/2, 4, 0⟩ := by
    norm_num [ScoringAlgorithms.calculateLanguageScores, ScoringAlgorithms.applyDiversityBonus,
      ScoringAlgorithms.buildLangMap, ScoringAlgorithms.updateLang,
      ScoringAlgorithms.diversityUpdate, ScoringAlgorithms.languageConfig,
      langRepo, fourLangRepos, year2025Start, List.find?]
  exact ⟨hfind, languageScores_diversity_bonus fourLangRepos "A" ⟨"A", 9/2, 4, 0⟩ hfind⟩

/-- When no repository beats the running best score, the scan keeps its
accumulator unchanged. -/
theorem selectBest_keeps (now : ℝ) : ∀ (l : List Repo) (acc : Option Repo × ℝ),
    (∀ r ∈ l, GithubService.calculateRepoScore now r ≤ acc.2) →
    l.foldl (GithubService.selectStep now) acc = acc := by
  intro l
  induction l with
  | nil => intro acc _; rfl
  | cons a rest ih =>
    intro acc hall
    rw [List.foldl_cons]
    have hstep : GithubService.selectStep now acc a = acc := by
      rw [GithubService.selectStep,
        if_neg (not_lt.mpr (hall a (List.mem_cons_self a rest)))]
    rw [hstep]
    exact ih acc (fun r hr => hall r (List.mem_cons_of_mem a hr))

/-- When some repository beats the running best score, the scan returns the
first repository attaining the maximum score: its slot attains a score that
strictly beats the start, dominates every repository, and strictly dominates
every earlier slot. -/
theorem selectBest_scan (now : ℝ) : ∀ (l : List Repo) (o : Option Repo) (s : ℝ),
    (∃ r ∈ l, s < GithubService.calculateRepoScore now r) →
    ∃ (i : ℕ) (hi : i < l.length),
      (l.foldl (GithubService.selectStep now) (o, s)).1 = some (l.get ⟨i, hi⟩) ∧
      (l.foldl (GithubService.selectStep now) (o, s)).2 =
        GithubService.calculateRepoScore now (l.get ⟨i, hi⟩) ∧
      s < GithubService.calculateRepoScore now (l.get ⟨i, hi⟩) ∧
      (∀ j (hj : j < l.length), j < i →
        GithubService.calculateRepoScore now (l.get ⟨j, hj⟩) <
          GithubService.calculateRepoScore now (l.get ⟨i, hi⟩)) ∧
      (∀ r ∈ l, GithubService.calculateRepoScore now r ≤
        GithubService.calculateRepoScore now (l.get ⟨i, hi⟩)) := by
  intro l
  induction l with
  | nil =>
    rintro o s ⟨r, hr, _⟩
    simp at hr
  | cons a rest ih =>
    intro o s hex
    rw [List.foldl_cons]
    by_cases ha : s < GithubService.calculateRepoScore now a
    · have hstep : GithubService.selectStep now (o, s) a =
          (some a, GithubService.calculateRepoScore now a) := by
        rw [GithubService.selectStep, if_pos ha]
      rw [hstep]
      by_cases hrest : ∃ r ∈ rest,
          GithubService.calculateRepoScore now a < GithubService.calculateRepoScore now r
      · obtain ⟨i, hi, h1, h2, h3, h4, h5⟩ :=
          ih (some a) (GithubService.calculateRepoScore now a) hrest
        refine ⟨i + 1, Nat.succ_lt_succ hi, by simpa using h1, by simpa using h2,
          lt_trans ha h3, ?_, ?_⟩
        · intro j hj hji
          cases j with
          | zero => simpa using h3
          | succ j2 =>
            have hj2 : j2 < rest.length := Nat.lt_of_succ_lt_succ hj
            have := h4 j2 hj2 (Nat.lt_of_succ_lt_succ hji)
            simpa using this
        · intro r hr
          rcases List.mem_cons.mp hr with heq | hm
          · subst heq
            simpa using le_of_lt h3
          · simpa using h5 r hm
      · push_neg at hrest
        rw [selectBest_keeps now rest (some a, GithubService.calculateRepoScore now a)
          (fun r hr => hrest r hr)]
        refine ⟨0, Nat.succ_pos _, rfl, rfl, ha, ?_, ?_⟩
        · intro j hj hj0
          exact absurd hj0 (Nat.not_lt_zero j)
        · intro r hr
          rcases List.mem_cons.mp hr with heq | hm
          · subst heq; exact le_refl _
          · exact hrest r hm
    · have hstep : GithubService.selectStep now (o, s) a = (o, s) := by
        rw [GithubService.selectStep, if_neg ha]
      rw [hstep]
      have hex2 : ∃ r ∈ rest, s < GithubService.calculateRepoScore now r := by
        obtain ⟨r, hr, hsr⟩ := hex
        rcases List.mem_cons.mp hr with heq | hm
        · subst heq; exact absurd hsr ha
        · exact ⟨r, hm, hsr⟩
      obtain ⟨i, hi, h1, h2, h3, h4, h5⟩ := ih o s hex2
      refine ⟨i + 1, Nat.succ_lt_succ hi, by simpa using h1, by simpa using h2, h3, ?_, ?_⟩
      · intro j hj hji
        cases j with
        | zero =>
          have : GithubService.calculateRepoScore now a ≤ s := not_lt.mp ha
          simpa using lt_of_le_of_lt this h3
        | succ j2 =>
          have hj2 : j2 < rest.length := Nat.lt_of_succ_lt_succ hj
          have := h4 j2 hj2 (Nat.lt_of_succ_lt_succ hji)
          simpa using this
      · intro r hr
        rcases List.mem_cons.mp hr with heq | hm
        · subst heq
          simpa using le_trans (not_lt.mp ha) (le_of_lt h3)
        · simpa using h5 r hm

/-- C10: the top-repository scan starts from best score -1 with a strict
comparison, so when every repository scores at most -1 nothing is selected
and the report carries the "No Public Repos" placeholder although
repositories are present; otherwise the first repository attaining the
maximum score is selected. -/
theorem topRepo_selection (now : ℝ) (repos : List Repo) :
    ((repos ≠ [] ∧ ∀ r ∈ repos, GithubService.calculateRepoScore now r ≤ -1) →
      (GithubService.selectBest now repos).1 = none ∧
      GithubService.topRepoOf (GithubService.selectBest now repos).1 =
        ⟨"No Public Repos", "Start coding to write history.", 0, "N/A", [], ""⟩) ∧
    ((∃ r ∈ repos, -1 < GithubService.calculateRepoScore now r) →
      ∃ (i : ℕ) (hi : i < repos.length),
        (GithubService.selectBest now repos).1 = some (repos.get ⟨i, hi⟩) ∧
        (∀ r ∈ repos, GithubService.calculateRepoScore now r ≤
          GithubService.calculateRepoScore now (repos.get ⟨i, hi⟩)) ∧
        (∀ j (hj : j < repos.length), j < i →
          GithubService.calculateRepoScore now (repos.get ⟨j, hj⟩) <
            GithubService.calculateRepoScore now (repos.get ⟨i, hi⟩))) := by
  constructor
  · rintro ⟨hne, hall⟩
    have hkeep : GithubService.selectBest now repos = (none, -1) := by
      rw [GithubService.selectBest]
      exact selectBest_keeps now repos (none, -1) (fun r hr => hall r hr)
    rw [hkeep]
    exact ⟨rfl, rfl⟩
  · intro hex
    obtain ⟨i, hi, h1, h2, h3, h4, h5⟩ := selectBest_scan now repos none (-1) hex
    exact ⟨i, hi, by rw [GithubService.selectBest]; exact h1, h5, h4⟩

/-- Witness for C10: a singleton collection holding an archived fork with no
positive signals (score -20) yields no selection and the placeholder. -/
theorem topRepo_selection_witness :
    GithubService.calculateRepoScore 0 archivedFork = -20 ∧
    (GithubService.selectBest 0 [archivedFork]).1 = none ∧
    GithubService.topRepoOf (GithubService.selectBest 0 [archivedFork]).1 =
      ⟨"No Public Repos", "Start coding to write history.", 0, "N/A", [], ""⟩ := by
  have hscore : GithubService.calculateRepoScore 0 archivedFork = -20 := by
    rw [GithubService.calculateRepoScore]
    norm_num [archivedFork, year2025Start, Real.logb_one]
  have happ := (topRepo_selection 0 [archivedFork]).1
    ⟨by simp, by
      intro r hr
      have hr2 : r = archivedFork := by simpa using hr
      rw [hr2, hscore]
      norm_num⟩
  exact ⟨hscore, happ.1, happ.2⟩

end GitStory
